import Mathlib

/-!
Verification of the EchoNote summarizer's note-repository, context-builder
and chat-session layer.

The embedding follows the source closely:

* `SummaryProject`, `TranscriptionSegment` mirror the data model.  In the
  source, `createdAt` holds `new Date().toISOString()` and every consumer
  reads it back through `new Date(x).getTime()`; since `getTime` inverts
  `toISOString` at millisecond precision, the field is embedded as the
  millisecond clock value (a `Nat`) that these round trips preserve.
* The repository operations `deleteProject`, `restoreProject`,
  `permanentlyDeleteProject` and the insertion performed by `processAudio`
  are embedded as pure state transformers on `AppState`.
* The source's array `sort` with comparator
  `(a, b) => new Date(b.createdAt).getTime() - new Date(a.createdAt).getTime()`
  is a stable sort (mandated for JavaScript engines); any stable sort by a
  total preorder produces the same list, so it is embedded with
  `List.insertionSort` over the relation `laterFirst`.
* UI event handlers can raise user-visible signals only through `alert`.
  Handlers are therefore embedded as returning the new state together with
  the list of alert messages the source raises on that path.
-/

namespace EchoNote

/-- One transcript segment: a speaker label and the text of the utterance
(shape of the `transcription` items of the summary schema). -/
structure TranscriptionSegment where
  speaker : String
  text : String
deriving DecidableEq, Repr

/-- The central note entity, mirroring the `SummaryProject` object built in
`processAudio`.  `createdAt` is the millisecond clock value (see module
docstring). -/
structure SummaryProject where
  id : String
  title : String
  summary : String
  transcription : List TranscriptionSegment
  titleEmoji : String
  audioUrl : String
  audioMimeType : String
  audioBase64 : String
  createdAt : Nat
deriving DecidableEq, Repr

/-- The two note collections held in `App` state: `projects` (active) and
`deletedProjects` (trashed). -/
structure AppState where
  projects : List SummaryProject
  deletedProjects : List SummaryProject
deriving DecidableEq, Repr

/-- The state at first render: both collections empty. -/
def emptyState : AppState := ⟨[], []⟩

/-- Models `Date.prototype.toISOString` applied to a clock reading of `t`
milliseconds: a deterministic rendering of the millisecond value.  The
claims depend only on the fact that equal clock readings give equal
strings, not on the calendar arithmetic of the real format. -/
def toISOString (t : Nat) : String :=
  "1970-01-01T00:00:00." ++ toString t ++ "Z"

/-- The structured result of `generateSummaryFromAudio`. -/
structure SummaryResult where
  title : String
  summary : String
  transcription : List TranscriptionSegment
  titleEmoji : String
deriving DecidableEq, Repr

/-- The `newProject` object literal built in `processAudio`.  `tId` and
`tCreated` are the clock readings of the two `new Date()` calls that
produce `id` and `createdAt`. -/
def mkNewProject (tId tCreated : Nat) (base64 mimeType audioUrl : String)
    (r : SummaryResult) : SummaryProject :=
  { id := toISOString tId
    title := r.title
    summary := r.summary
    transcription := r.transcription
    titleEmoji := r.titleEmoji
    audioUrl := audioUrl
    audioMimeType := mimeType
    audioBase64 := base64
    createdAt := tCreated }

/-- The sort order of the active list: the comparator
`(a, b) => getTime(b.createdAt) - getTime(a.createdAt)` puts `a` before `b`
when `b.createdAt ≤ a.createdAt`, i.e. newest first. -/
def laterFirst (a b : SummaryProject) : Prop := b.createdAt ≤ a.createdAt

instance : DecidableRel laterFirst := fun a b => Nat.decLe b.createdAt a.createdAt

instance : IsTotal SummaryProject laterFirst :=
  ⟨fun a b => le_total b.createdAt a.createdAt⟩

instance : IsTrans SummaryProject laterFirst :=
  ⟨fun _ _ _ h1 h2 => le_trans h2 h1⟩

/-- The `.sort((a,b) => new Date(b.createdAt).getTime() - new Date(a.createdAt).getTime())`
call: a stable sort by `createdAt` descending. -/
def sortProjects (l : List SummaryProject) : List SummaryProject :=
  List.insertionSort laterFirst l

/-- The state update `setProjects(prev => [newProject, ...prev].sort(...))`
performed by `processAudio` on success: the repository's create. -/
def createNote (p : SummaryProject) (s : AppState) : AppState :=
  { s with projects := sortProjects (p :: s.projects) }

/-- The full caller-visible behaviour of `processAudio` after the
summarization call settles: `result = some r` is the success path (build
`newProject`, insert and re-sort), `result = none` is the catch path
(state untouched, one alert raised).  The second component collects the
`alert(...)` messages of the executed path. -/
def processAudioRun (result : Option SummaryResult) (tId tCreated : Nat)
    (base64 mimeType audioUrl : String) (s : AppState) : AppState × List String :=
  match result with
  | some r => (createNote (mkNewProject tId tCreated base64 mimeType audioUrl r) s, [])
  | none => (s, ["Failed to process audio. Please try again."])

/-- `deleteProject(id)`: if a project with this id is found in the active
list, remove every project with this id from it and prepend the found one
to the deleted list; otherwise do nothing. -/
def deleteProject (id : String) (s : AppState) : AppState :=
  match s.projects.find? (fun p => p.id == id) with
  | some projectToDelete =>
      { projects := s.projects.filter (fun p => p.id != id)
        deletedProjects := projectToDelete :: s.deletedProjects }
  | none => s

/-- `restoreProject(id)`: if a project with this id is found in the deleted
list, remove it there and insert it into the active list, re-sorting
(`[...prev, projectToRestore].sort(...)`); otherwise do nothing. -/
def restoreProject (id : String) (s : AppState) : AppState :=
  match s.deletedProjects.find? (fun p => p.id == id) with
  | some projectToRestore =>
      { projects := sortProjects (s.projects ++ [projectToRestore])
        deletedProjects := s.deletedProjects.filter (fun p => p.id != id) }
  | none => s

/-- `permanentlyDeleteProject(id)`: filter the deleted list by id. -/
def permanentlyDeleteProject (id : String) (s : AppState) : AppState :=
  { s with deletedProjects := s.deletedProjects.filter (fun p => p.id != id) }

/-- Caller-visible behaviour of the `deleteProject` handler: the new state
and the alerts raised.  The source body contains no `alert` or `throw`, so
the alert list is empty on every path. -/
def deleteProjectRun (id : String) (s : AppState) : AppState × List String :=
  (deleteProject id s, [])

/-- Caller-visible behaviour of the `restoreProject` handler (no `alert`
or `throw` in the source body). -/
def restoreProjectRun (id : String) (s : AppState) : AppState × List String :=
  (restoreProject id s, [])

/-- Caller-visible behaviour of the `permanentlyDeleteProject` handler (no
`alert` or `throw` in the source body). -/
def permanentlyDeleteProjectRun (id : String) (s : AppState) : AppState × List String :=
  (permanentlyDeleteProject id s, [])

/-- A repository operation, as exposed by the app: create a note (the
terminal step of `processAudio`), soft-delete, restore, or purge by id. -/
inductive RepoOp where
  | create (p : SummaryProject)
  | softDelete (id : String)
  | restore (id : String)
  | purge (id : String)
deriving DecidableEq, Repr

/-- Apply one repository operation to the state. -/
def applyOp (o : RepoOp) (s : AppState) : AppState :=
  match o with
  | .create p => createNote p s
  | .softDelete id => deleteProject id s
  | .restore id => restoreProject id s
  | .purge id => permanentlyDeleteProject id s

/-- Run a sequence of repository operations from the empty initial state. -/
def runOps (ops : List RepoOp) : AppState :=
  ops.foldl (fun s o => applyOp o s) emptyState

/-- Whether a note with this id is present in either collection. -/
def idPresent (id : String) (s : AppState) : Bool :=
  (s.projects ++ s.deletedProjects).any (fun p => p.id == id)

/-- All note ids of the state, active first then trashed. -/
def noteIds (s : AppState) : List String :=
  (s.projects ++ s.deletedProjects).map (fun p => p.id)

/-- The collection-exclusivity invariant: no id occurs twice across the
two collections (hence no id is in both and no id repeats inside one). -/
def RepoInv (s : AppState) : Prop := (noteIds s).Nodup

/-- Whether one operation respects id freshness in the given state: a
`create` must use an id that is in neither collection; the other
operations are unconstrained. -/
def freshOk (o : RepoOp) (s : AppState) : Bool :=
  match o with
  | .create p => !(idPresent p.id s)
  | _ => true

/-- Each `create` in the sequence happens at a moment where its id is in
neither collection (the spec's "identifier generation at creation time"
assumption made explicit). -/
def freshAlong : AppState → List RepoOp → Bool
  | _, [] => true
  | s, o :: os => freshOk o s && freshAlong (applyOp o s) os

/-! ### Chat interface and streaming -/

/-- The two values of the `role` field of a `ChatMessage`. -/
inductive ChatRole where
  | user
  | model
deriving DecidableEq, Repr

/-- One entry of the visible transcript. -/
structure ChatMessage where
  role : ChatRole
  text : String
deriving DecidableEq, Repr

/-- Models `String.prototype.trim` as used by `handleSend`'s
`!input.trim()` guard: drop whitespace from both ends. -/
def strTrim (s : String) : String :=
  ⟨((s.data.dropWhile Char.isWhitespace).reverse.dropWhile Char.isWhitespace).reverse⟩

/-- The `onChunk` callback of `handleSend`: if the last transcript entry
has role `model`, append the chunk to its text and replace it
(`[...prev.slice(0, -1), lastMessage]`); otherwise leave the transcript
unchanged. -/
def appendChunk (chunk : String) (msgs : List ChatMessage) : List ChatMessage :=
  match msgs.getLast? with
  | some lastMessage =>
    match lastMessage.role with
    | .model => msgs.dropLast ++ [⟨.model, lastMessage.text ++ chunk⟩]
    | .user => msgs
  | none => msgs

/-- State of the global `ChatInterface` together with the app-level
session handle.  `currentSession` numbers the `Chat` object held in
`generalChatRef.current` (replaced by `createGlobalChat` whenever the
collections change); `streamSession` is the session number captured by
the in-flight `handleSend` when it passed `chatRef.current` to
`sendChatMessageStream`, or `none` when no stream is in flight. -/
structure ChatState where
  messages : List ChatMessage
  isThinking : Bool
  currentSession : Nat
  streamSession : Option Nat
deriving DecidableEq, Repr

/-- The chat state when `ChatInterface` mounts. -/
def initialChatState : ChatState := ⟨[], false, 0, none⟩

/-- The events that drive the chat interface. -/
inductive ChatEvent where
  | send (text : String)
  | chunk (text : String)
  | rebuildGlobalChat
  | streamEnd
deriving DecidableEq, Repr

/-- One step of the chat interface, following the source handlers:

* `send`: `handleSend` returns early when the trimmed input is empty or a
  stream is already in flight; otherwise it appends the user message and
  an empty trailing model message, sets `isThinking`, and hands the
  current session's `Chat` object to `sendChatMessageStream`.
* `chunk`: a fragment delivered by the in-flight stream runs `onChunk`,
  which appends to the trailing model message without comparing the
  stream's session against the current one.
* `rebuildGlobalChat`: the effect on `[projects, deletedProjects]`
  replaces `generalChatRef.current` with a fresh session; the transcript
  state is untouched.
* `streamEnd`: the `finally` block clears `isThinking`. -/
def stepChat (s : ChatState) : ChatEvent → ChatState
  | .send text =>
    if strTrim text == "" || s.isThinking then s
    else
      { s with
        messages := s.messages ++ [⟨.user, text⟩, ⟨.model, ""⟩]
        isThinking := true
        streamSession := some s.currentSession }
  | .chunk text =>
    match s.streamSession with
    | some _ => { s with messages := appendChunk text s.messages }
    | none => s
  | .rebuildGlobalChat => { s with currentSession := s.currentSession + 1 }
  | .streamEnd => { s with isThinking := false, streamSession := none }

/-- Run a sequence of chat events. -/
def runChat (s : ChatState) (events : List ChatEvent) : ChatState :=
  events.foldl stepChat s

/-! ### Context builder (`createGlobalChat`) -/

/-- The line built for one active project:
`- Title: "<title>" (Summary: <summary>)`. -/
def activeProjectLine (p : SummaryProject) : String :=
  "- Title: \"" ++ p.title ++ "\" (Summary: " ++ p.summary ++ ")"

/-- The `activeProjectsContext` template of `createGlobalChat`. -/
def activeProjectsContext (projects : List SummaryProject) : String :=
  if projects.length > 0 then
    "Here are the user's current summaries:\n"
      ++ String.intercalate "\n" (projects.map activeProjectLine)
  else "The user currently has no active summaries."

/-- The line built for one trashed project: `- Title: "<title>"`. -/
def deletedProjectLine (p : SummaryProject) : String :=
  "- Title: \"" ++ p.title ++ "\""

/-- The `deletedProjectsContext` template of `createGlobalChat`. -/
def deletedProjectsContext (deletedProjects : List SummaryProject) : String :=
  if deletedProjects.length > 0 then
    "Here are the items in the user's recycle bin:\n"
      ++ String.intercalate "\n" (deletedProjects.map deletedProjectLine)
  else "The user's recycle bin is empty."

/-- The `systemInstruction` string `createGlobalChat` passes to
`ai.chats.create`: the fixed assistant briefing with the two context
blocks interpolated. -/
def globalSystemInstruction (projects deletedProjects : List SummaryProject) : String :=
  "You are the built-in AI assistant for the \"EchoNote Summarizer\" application.\n"
    ++ "Your ONLY purpose is to help users with their notes and the app's features.\n"
    ++ "You are strictly forbidden from answering any general knowledge questions or engaging in conversations unrelated to the user's summaries or the app itself.\n"
    ++ "If the user asks a question outside of your scope (e.g., \"What is the capital of France?\", \"Tell me a joke\"), you MUST politely decline and remind them of your purpose. For example, say: \"I can only answer questions about your notes and summaries within the EchoNote app. How can I help you with your recordings?\"\n"
    ++ "\n"
    ++ "You have access to the following information about the user's data:\n"
    ++ "\n"
    ++ "1.  **Active Summaries**:\n"
    ++ activeProjectsContext projects
    ++ "\n"
    ++ "\n"
    ++ "2.  **Recycle Bin**:\n"
    ++ deletedProjectsContext deletedProjects
    ++ "\n"
    ++ "\n"
    ++ "Use this information to answer questions about their notes. You can count items, search for keywords in titles and summaries, and compare notes."

/-! ### Durable store load (the load-from-storage effect) -/

/-- The load-from-storage effect at first render, flattened from its
`try`/`catch`.  `parse` stands for `JSON.parse` followed by use as a
project array (an exception is `Except.error`).  Both collections start
empty (`useState([])`); inside the `try`, the active slot is read and
assigned first, then the deleted slot; the `catch` only logs, so a parse
failure keeps every assignment made before it and leaves the rest at the
initial empty value.  The result is always a plain `AppState`: no
exception escapes the handler. -/
def loadFromStorage (parse : String → Except String (List SummaryProject))
    (storedProjects storedDeletedProjects : Option String) : AppState :=
  match storedProjects with
  | none =>
    match storedDeletedProjects with
    | none => ⟨[], []⟩
    | some sd =>
      match parse sd with
      | .ok ds => ⟨[], ds⟩
      | .error _ => ⟨[], []⟩
  | some sp =>
    match parse sp with
    | .error _ => ⟨[], []⟩
    | .ok ps =>
      match storedDeletedProjects with
      | none => ⟨ps, []⟩
      | some sd =>
        match parse sd with
        | .ok ds => ⟨ps, ds⟩
        | .error _ => ⟨ps, []⟩

/-- The claim's reading of "no-op with signal": the operation leaves the
state unchanged and raises at least one alert for the caller (modelled
from the spec's words, for comparison against the code). -/
def noOpWithSignal (run : AppState × List String) (before : AppState) : Prop :=
  run.1 = before ∧ run.2 ≠ []

/-! ### Lemmas: the collection-exclusivity invariant -/

lemma deleteProject_found {s : AppState} {id : String} {p : SummaryProject}
    (h : s.projects.find? (fun q => q.id == id) = some p) :
    deleteProject id s
      = ⟨s.projects.filter (fun q => q.id != id), p :: s.deletedProjects⟩ := by
  unfold deleteProject
  rw [h]

lemma deleteProject_not_found {s : AppState} {id : String}
    (h : s.projects.find? (fun q => q.id == id) = none) :
    deleteProject id s = s := by
  unfold deleteProject
  rw [h]

lemma restoreProject_found {s : AppState} {id : String} {p : SummaryProject}
    (h : s.deletedProjects.find? (fun q => q.id == id) = some p) :
    restoreProject id s
      = ⟨sortProjects (s.projects ++ [p]),
         s.deletedProjects.filter (fun q => q.id != id)⟩ := by
  unfold restoreProject
  rw [h]

lemma restoreProject_not_found {s : AppState} {id : String}
    (h : s.deletedProjects.find? (fun q => q.id == id) = none) :
    restoreProject id s = s := by
  unfold restoreProject
  rw [h]

lemma map_id_filter_ne (l : List SummaryProject) (id : String) :
    (l.filter (fun p => p.id != id)).map (fun p => p.id)
      = (l.map (fun p => p.id)).filter (fun y => y != id) := by
  induction l with
  | nil => rfl
  | cons a t ih =>
    by_cases h : a.id = id
    · simp [List.filter_cons, h, ih]
    · simp only [List.filter_cons, List.map_cons]
      rw [if_pos (by simpa using h), if_pos (by simpa using h)]
      simp [ih]

lemma noteIds_perm_create (p : SummaryProject) (s : AppState) :
    List.Perm (noteIds (createNote p s)) (p.id :: noteIds s) := by
  unfold noteIds createNote sortProjects
  refine List.Perm.trans
    (List.Perm.map _ ((List.perm_insertionSort laterFirst (p :: s.projects)).append_right _)) ?_
  simp

/-- Moving one occurrence of `x` from the front part of a duplicate-free
concatenation to the head of the back part keeps it duplicate-free. -/
lemma nodup_move_to_back (P D : List String) (x : String)
    (h : (P ++ D).Nodup) (hx : x ∈ P) :
    ((P.filter (fun y => y != x)) ++ x :: D).Nodup := by
  rw [List.nodup_append] at h
  obtain ⟨hP, hD, hdisj⟩ := h
  rw [List.nodup_append]
  refine ⟨hP.filter _, ?_, ?_⟩
  · exact List.nodup_cons.2 ⟨fun hxD => hdisj hx hxD, hD⟩
  · intro a ha hmem
    have haP : a ∈ P := List.mem_of_mem_filter ha
    have hane : a ≠ x := by simpa using List.of_mem_filter ha
    rcases List.mem_cons.1 hmem with rfl | haD
    · exact hane rfl
    · exact hdisj haP haD

/-- Moving one occurrence of `x` from the back part of a duplicate-free
concatenation to the end of the front part keeps it duplicate-free. -/
lemma nodup_move_to_front (P D : List String) (x : String)
    (h : (P ++ D).Nodup) (hx : x ∈ D) :
    ((P ++ [x]) ++ D.filter (fun y => y != x)).Nodup := by
  rw [List.nodup_append] at h
  obtain ⟨hP, hD, hdisj⟩ := h
  have hperm : List.Perm ((P ++ [x]) ++ D.filter (fun y => y != x))
      (x :: (P ++ D.filter (fun y => y != x))) :=
    (List.perm_append_singleton x P).append_right _
  refine hperm.symm.nodup ?_
  refine List.nodup_cons.2 ⟨?_, ?_⟩
  · intro hmem
    rcases List.mem_append.1 hmem with hxP | hxF
    · exact hdisj hxP hx
    · have : x ≠ x := by simpa using List.of_mem_filter hxF
      exact this rfl
  · rw [List.nodup_append]
    refine ⟨hP, hD.filter _, ?_⟩
    intro a haP haF
    exact hdisj haP (List.mem_of_mem_filter haF)

lemma find?_id_eq {l : List SummaryProject} {id : String} {p : SummaryProject}
    (h : l.find? (fun q => q.id == id) = some p) : p.id = id := by
  have := List.find?_some h
  simpa using this

lemma RepoInv.create {s : AppState} {p : SummaryProject}
    (h : RepoInv s) (hfresh : idPresent p.id s = false) :
    RepoInv (createNote p s) := by
  refine (noteIds_perm_create p s).symm.nodup ?_
  refine List.nodup_cons.2 ⟨?_, h⟩
  intro hmem
  have : idPresent p.id s = true := by
    unfold idPresent
    rw [List.any_eq_true]
    unfold noteIds at hmem
    obtain ⟨q, hq, hqid⟩ := List.mem_map.1 hmem
    exact ⟨q, hq, by simpa using hqid⟩
  rw [hfresh] at this
  exact Bool.false_ne_true this

lemma RepoInv.softDelete {s : AppState} (id : String) (h : RepoInv s) :
    RepoInv (deleteProject id s) := by
  cases hfind : s.projects.find? (fun q => q.id == id) with
  | none => rw [deleteProject_not_found hfind]; exact h
  | some p =>
    have hid : p.id = id := find?_id_eq hfind
    have hmem : p ∈ s.projects := List.mem_of_find?_eq_some hfind
    rw [deleteProject_found hfind]
    unfold RepoInv noteIds at h ⊢
    simp only [List.map_append, List.map_cons] at h ⊢
    rw [map_id_filter_ne]
    subst hid
    exact nodup_move_to_back _ _ _ h (List.mem_map.2 ⟨p, hmem, rfl⟩)

lemma RepoInv.restore {s : AppState} (id : String) (h : RepoInv s) :
    RepoInv (restoreProject id s) := by
  cases hfind : s.deletedProjects.find? (fun q => q.id == id) with
  | none => rw [restoreProject_not_found hfind]; exact h
  | some p =>
    have hid : p.id = id := find?_id_eq hfind
    have hmem : p ∈ s.deletedProjects := List.mem_of_find?_eq_some hfind
    rw [restoreProject_found hfind]
    unfold RepoInv noteIds at h ⊢
    simp only [List.map_append] at h ⊢
    have hperm : List.Perm ((sortProjects (s.projects ++ [p])).map (fun q => q.id))
        ((s.projects.map fun q => q.id) ++ [p.id]) := by
      refine List.Perm.trans
        (List.Perm.map _ (List.perm_insertionSort laterFirst (s.projects ++ [p]))) ?_
      simp
    refine ((hperm.append_right _).symm.nodup ?_)
    rw [map_id_filter_ne]
    subst hid
    exact nodup_move_to_front _ _ _ h (List.mem_map.2 ⟨p, hmem, rfl⟩)

lemma RepoInv.purge {s : AppState} (id : String) (h : RepoInv s) :
    RepoInv (permanentlyDeleteProject id s) := by
  unfold RepoInv noteIds at h ⊢
  unfold permanentlyDeleteProject
  simp only [List.map_append] at h ⊢
  refine List.Nodup.sublist ?_ h
  exact ((List.filter_sublist _).map _).append_left _

lemma RepoInv.step {s : AppState} {o : RepoOp} (h : RepoInv s)
    (hfresh : freshOk o s = true) :
    RepoInv (applyOp o s) := by
  cases o with
  | create p =>
    refine h.create ?_
    simpa [freshOk] using hfresh
  | softDelete id => exact h.softDelete id
  | restore id => exact h.restore id
  | purge id => exact h.purge id

lemma RepoInv.run (s : AppState) (ops : List RepoOp) (h : RepoInv s)
    (hfresh : freshAlong s ops = true) :
    RepoInv (ops.foldl (fun s o => applyOp o s) s) := by
  induction ops generalizing s with
  | nil => exact h
  | cons o os ih =>
    rw [freshAlong, Bool.and_eq_true] at hfresh
    exact ih _ (h.step hfresh.1) hfresh.2

/-! ### Lemmas: the streaming transcript -/

lemma strJoin_cons (c : String) (cs : List String) :
    String.join (c :: cs) = c ++ String.join cs := by
  cases c
  simp [String.join_eq]
  rfl

lemma runChat_cons (s : ChatState) (e : ChatEvent) (es : List ChatEvent) :
    runChat s (e :: es) = runChat (stepChat s e) es := rfl

lemma stepChat_chunk_model (base : List ChatMessage) (t c : String) (think : Bool)
    (cur ss : Nat) :
    stepChat ⟨base ++ [⟨.model, t⟩], think, cur, some ss⟩ (.chunk c)
      = ⟨base ++ [⟨.model, t ++ c⟩], think, cur, some ss⟩ := by
  show ChatState.mk (appendChunk c (base ++ [⟨.model, t⟩])) think cur (some ss) = _
  unfold appendChunk
  simp

lemma runChat_chunks (base : List ChatMessage) (t : String) (think : Bool)
    (cur ss : Nat) (cs : List String) :
    runChat ⟨base ++ [⟨.model, t⟩], think, cur, some ss⟩ (cs.map .chunk)
      = ⟨base ++ [⟨.model, t ++ String.join cs⟩], think, cur, some ss⟩ := by
  induction cs generalizing t with
  | nil => simp [runChat, String.join]
  | cons c cs ih =>
    rw [List.map_cons, runChat_cons, stepChat_chunk_model, ih, strJoin_cons]
    simp [String.append_assoc]

/-! ### Claim theorems -/

/-- C10: a new note's id is taken from the wall-clock creation timestamp
(`new Date().toISOString()`), the same source as `createdAt`, not from a
uniqueness-guaranteeing generator; two create operations whose id clock
reads fall in the same millisecond `t` therefore receive equal ids, no
matter how the rest of their data differs. -/
theorem note_id_from_clock (t c1 c2 : Nat) (b1 m1 u1 b2 m2 u2 : String)
    (r1 r2 : SummaryResult) :
    (mkNewProject t c1 b1 m1 u1 r1).id = toISOString t
    ∧ (mkNewProject t c1 b1 m1 u1 r1).createdAt = c1
    ∧ (mkNewProject t c1 b1 m1 u1 r1).id = (mkNewProject t c2 b2 m2 u2 r2).id :=
  ⟨rfl, rfl, rfl⟩

/-- C9: moving a note between collections never mutates its other fields.
Soft-deleting stores, at the head of the trashed list, the very note value
found in the active list, and restoring inserts into the active list the
very note value found in the trashed list; being the same structure value,
the moved note's id, title, titleEmoji, summary, transcript, audio payload
and createdAt are identical before and after the move. -/
theorem move_preserves_fields (id1 id2 : String) (s1 s2 : AppState)
    (p q : SummaryProject)
    (h1 : s1.projects.find? (fun x => x.id == id1) = some p)
    (h2 : s2.deletedProjects.find? (fun x => x.id == id2) = some q) :
    (deleteProject id1 s1).deletedProjects.head? = some p
    ∧ q ∈ (restoreProject id2 s2).projects := by
  constructor
  · rw [deleteProject_found h1]
    rfl
  · rw [restoreProject_found h2]
    exact (List.perm_insertionSort laterFirst _).mem_iff.2 (by simp)

/-- C9 witness: a concrete soft-delete and restore, each moving the single
stored note unchanged. -/
theorem move_preserves_fields_witness :
    (deleteProject "a" ⟨[⟨"a", "t", "s", [], "e", "u", "m", "b", 1⟩], []⟩).deletedProjects.head?
      = some ⟨"a", "t", "s", [], "e", "u", "m", "b", 1⟩
    ∧ (⟨"a", "t", "s", [], "e", "u", "m", "b", 1⟩ : SummaryProject)
      ∈ (restoreProject "a" ⟨[], [⟨"a", "t", "s", [], "e", "u", "m", "b", 1⟩]⟩).projects :=
  move_preserves_fields "a" "a"
    ⟨[⟨"a", "t", "s", [], "e", "u", "m", "b", 1⟩], []⟩
    ⟨[], [⟨"a", "t", "s", [], "e", "u", "m", "b", 1⟩]⟩
    ⟨"a", "t", "s", [], "e", "u", "m", "b", 1⟩
    ⟨"a", "t", "s", [], "e", "u", "m", "b", 1⟩
    (by decide) (by decide)

/-- C8 (amended): when the given id is not found in the operation's own
source collection — `activeNotes` for softDelete, `trashedNotes` for
restore and purge — that operation is a silent no-op: both collections are
unchanged and no signal (no alert) reaches the caller.  Each conjunct
carries only its own source-collection hypothesis, so the theorem also
covers an id that is present in the other collection (e.g. soft-deleting
an id that currently sits only in trash). -/
theorem missing_id_silent_noop (id : String) (s : AppState) :
    (s.projects.find? (fun q => q.id == id) = none
      → deleteProjectRun id s = (s, []))
    ∧ (s.deletedProjects.find? (fun q => q.id == id) = none
      → restoreProjectRun id s = (s, [])
        ∧ permanentlyDeleteProjectRun id s = (s, [])) := by
  refine ⟨fun h1 => ?_, fun h2 => ⟨?_, ?_⟩⟩
  · unfold deleteProjectRun
    rw [deleteProject_not_found h1]
  · unfold restoreProjectRun
    rw [restoreProject_not_found h2]
  · unfold permanentlyDeleteProjectRun permanentlyDeleteProject
    have hall : s.deletedProjects.filter (fun q => q.id != id) = s.deletedProjects := by
      apply List.filter_eq_self.2
      intro a ha
      have := List.find?_eq_none.1 h2 a ha
      simpa using this
    rw [hall]

/-- C8 witness: soft-deleting an id that is present only in the trashed
collection, and restoring/purging an id that is present only in the
active collection — each a silent no-op. -/
theorem missing_id_silent_noop_witness :
    deleteProjectRun "a" ⟨[], [⟨"a", "", "", [], "", "", "", "", 1⟩]⟩
      = (⟨[], [⟨"a", "", "", [], "", "", "", "", 1⟩]⟩, [])
    ∧ restoreProjectRun "b" ⟨[⟨"b", "", "", [], "", "", "", "", 2⟩], []⟩
      = (⟨[⟨"b", "", "", [], "", "", "", "", 2⟩], []⟩, [])
    ∧ permanentlyDeleteProjectRun "b" ⟨[⟨"b", "", "", [], "", "", "", "", 2⟩], []⟩
      = (⟨[⟨"b", "", "", [], "", "", "", "", 2⟩], []⟩, []) :=
  ⟨(missing_id_silent_noop "a" ⟨[], [⟨"a", "", "", [], "", "", "", "", 1⟩]⟩).1
      (by decide),
   ((missing_id_silent_noop "b" ⟨[⟨"b", "", "", [], "", "", "", "", 2⟩], []⟩).2
      (by decide)).1,
   ((missing_id_silent_noop "b" ⟨[⟨"b", "", "", [], "", "", "", "", 2⟩], []⟩).2
      (by decide)).2⟩

/-- C8 counterexample: on a not-found id the source handlers raise no
alert at all — the "signals the not-found condition to the caller" part of
the claim is false (shown here for `deleteProject` on the empty state; the
embedded alert channel of all three handlers is constantly empty). -/
theorem missing_id_no_signal :
    ¬ noOpWithSignal (deleteProjectRun "x" ⟨[], []⟩) ⟨[], []⟩ :=
  fun h => h.2 rfl

/-- C2 (amended): on a successful summarization, create inserts the new
note into the active collection and re-sorts it by `createdAt` descending,
raising no alert; it performs no duplicate-id check, so it never fails
because the id already exists — it fails (alert, no insertion) only when
the summarization call itself fails. -/
theorem processAudio_inserts_and_sorts (r : SummaryResult) (tId tCreated : Nat)
    (b m u : String) (s : AppState) :
    processAudioRun (some r) tId tCreated b m u s
      = ({ s with projects := sortProjects (mkNewProject tId tCreated b m u r :: s.projects) }, [])
    ∧ List.Sorted laterFirst (processAudioRun (some r) tId tCreated b m u s).1.projects
    ∧ processAudioRun none tId tCreated b m u s
      = (s, ["Failed to process audio. Please try again."]) :=
  ⟨rfl, List.sorted_insertionSort laterFirst _, rfl⟩

/-- C2 counterexample: creating a note whose id already exists in the
active collection does not fail — no alert is raised and the duplicate id
is inserted, so "fails if and only if the note's id already exists" is
false on the code. -/
theorem processAudio_accepts_duplicate_id :
    (processAudioRun (some ⟨"t", "s", [], "e"⟩) 5 5 "b" "m" "u"
        ⟨[⟨toISOString 5, "old", "os", [], "oe", "ou", "om", "ob", 5⟩], []⟩).2 = []
    ∧ ((processAudioRun (some ⟨"t", "s", [], "e"⟩) 5 5 "b" "m" "u"
        ⟨[⟨toISOString 5, "old", "os", [], "oe", "ou", "om", "ob", 5⟩], []⟩).1.projects.map
          (fun p => p.id))
      = [toISOString 5, toISOString 5] := by
  constructor
  · rfl
  · decide

/-- C1 (amended): for every sequence of create, softDelete, restore and
purge operations starting from empty collections in which each create
happens while its id is absent from both collections, every note id is
duplicate-free within each collection and belongs to at most one of the
active and trashed collections. -/
theorem noteId_in_at_most_one_collection (ops : List RepoOp)
    (h : freshAlong emptyState ops = true) :
    ((runOps ops).projects.map (fun p => p.id)).Nodup
    ∧ ((runOps ops).deletedProjects.map (fun p => p.id)).Nodup
    ∧ ∀ i, i ∈ (runOps ops).projects.map (fun p => p.id)
        → i ∉ (runOps ops).deletedProjects.map (fun p => p.id) := by
  have hinv : RepoInv (runOps ops) :=
    RepoInv.run emptyState ops (by simp [RepoInv, noteIds, emptyState]) h
  unfold RepoInv noteIds at hinv
  rw [List.map_append, List.nodup_append] at hinv
  exact ⟨hinv.1, hinv.2.1, fun i hi hj => hinv.2.2 hi hj⟩

/-- C1 witness: a concrete fresh-id sequence exercising all four
operations satisfies the freshness hypothesis, and the theorem yields the
exclusivity of the two final collections. -/
theorem noteId_in_at_most_one_collection_witness :
    freshAlong emptyState
        [.create ⟨"a", "", "", [], "", "", "", "", 1⟩,
         .create ⟨"b", "", "", [], "", "", "", "", 2⟩,
         .softDelete "a", .restore "a", .softDelete "b", .purge "b"] = true
    ∧ ∀ i, i ∈ (runOps [.create ⟨"a", "", "", [], "", "", "", "", 1⟩,
            .create ⟨"b", "", "", [], "", "", "", "", 2⟩,
            .softDelete "a", .restore "a", .softDelete "b", .purge "b"]).projects.map
          (fun p => p.id)
        → i ∉ (runOps [.create ⟨"a", "", "", [], "", "", "", "", 1⟩,
            .create ⟨"b", "", "", [], "", "", "", "", 2⟩,
            .softDelete "a", .restore "a", .softDelete "b", .purge "b"]).deletedProjects.map
          (fun p => p.id) :=
  ⟨by decide,
   (noteId_in_at_most_one_collection
     [.create ⟨"a", "", "", [], "", "", "", "", 1⟩,
      .create ⟨"b", "", "", [], "", "", "", "", 2⟩,
      .softDelete "a", .restore "a", .softDelete "b", .purge "b"] (by decide)).2.2⟩

/-- C1 counterexample: without the freshness amendment the claim is false
on the code — `processAudio` never checks for an existing id, so the
sequence create "x", softDelete "x", create "x" leaves id "x" in both the
active and the trashed collection at once. -/
theorem duplicate_create_breaks_exclusivity :
    "x" ∈ (runOps [.create ⟨"x", "", "", [], "", "", "", "", 1⟩,
            .softDelete "x",
            .create ⟨"x", "", "", [], "", "", "", "", 2⟩]).projects.map (fun p => p.id)
    ∧ "x" ∈ (runOps [.create ⟨"x", "", "", [], "", "", "", "", 1⟩,
            .softDelete "x",
            .create ⟨"x", "", "", [], "", "", "", "", 2⟩]).deletedProjects.map (fun p => p.id) := by
  decide

/-- C4: for a note present in the trashed collection, restore places it
into the active collection re-sorted by `createdAt` descending: the
resulting active list is exactly the stable sort of the previous active
list plus the restored note, contains the note, and is ordered by
`createdAt` descending — a position dictated only by `createdAt`,
independent of how long the note sat in trash. -/
theorem restore_places_note_by_createdAt (id : String) (s : AppState)
    (p : SummaryProject)
    (h : s.deletedProjects.find? (fun q => q.id == id) = some p) :
    (restoreProject id s).projects = sortProjects (s.projects ++ [p])
    ∧ p ∈ (restoreProject id s).projects
    ∧ List.Sorted laterFirst (restoreProject id s).projects := by
  rw [restoreProject_found h]
  refine ⟨rfl, ?_, ?_⟩
  · exact (List.perm_insertionSort laterFirst _).mem_iff.2 (by simp)
  · exact List.sorted_insertionSort laterFirst _

/-- C4 witness: restoring a note created before the one still active slots
it behind the newer note. -/
theorem restore_places_note_by_createdAt_witness :
    (restoreProject "a" ⟨[⟨"b", "", "", [], "", "", "", "", 5⟩],
        [⟨"a", "", "", [], "", "", "", "", 3⟩]⟩).projects
      = sortProjects ([⟨"b", "", "", [], "", "", "", "", 5⟩]
          ++ [⟨"a", "", "", [], "", "", "", "", 3⟩])
    ∧ (⟨"a", "", "", [], "", "", "", "", 3⟩ : SummaryProject)
      ∈ (restoreProject "a" ⟨[⟨"b", "", "", [], "", "", "", "", 5⟩],
          [⟨"a", "", "", [], "", "", "", "", 3⟩]⟩).projects
    ∧ List.Sorted laterFirst
        (restoreProject "a" ⟨[⟨"b", "", "", [], "", "", "", "", 5⟩],
          [⟨"a", "", "", [], "", "", "", "", 3⟩]⟩).projects :=
  restore_places_note_by_createdAt "a"
    ⟨[⟨"b", "", "", [], "", "", "", "", 5⟩], [⟨"a", "", "", [], "", "", "", "", 3⟩]⟩
    ⟨"a", "", "", [], "", "", "", "", 3⟩ (by decide)

/-- C7: the global assistant's system instruction is a pure, deterministic
function of the two collections — it reads only each active note's title
and summary and each trashed note's title, so any two collection pairs
agreeing on those fields (in particular, identical collections) produce
byte-identical instruction text. -/
theorem globalContext_deterministic (ps ps' ds ds' : List SummaryProject)
    (hact : ps.map (fun p => (p.title, p.summary)) = ps'.map (fun p => (p.title, p.summary)))
    (hdel : ds.map (fun p => p.title) = ds'.map (fun p => p.title)) :
    globalSystemInstruction ps ds = globalSystemInstruction ps' ds' := by
  have hlen : ps.length = ps'.length := by
    simpa using congrArg List.length hact
  have hdlen : ds.length = ds'.length := by
    simpa using congrArg List.length hdel
  have hline : ∀ l : List SummaryProject, l.map activeProjectLine
      = (l.map (fun p => (p.title, p.summary))).map
          (fun pr => "- Title: \"" ++ pr.1 ++ "\" (Summary: " ++ pr.2 ++ ")") := by
    intro l
    rw [List.map_map]
    rfl
  have hlines : ps.map activeProjectLine = ps'.map activeProjectLine := by
    rw [hline, hline, hact]
  have hdline : ∀ l : List SummaryProject, l.map deletedProjectLine
      = (l.map (fun p => p.title)).map (fun t => "- Title: \"" ++ t ++ "\"") := by
    intro l
    rw [List.map_map]
    rfl
  have hdlines : ds.map deletedProjectLine = ds'.map deletedProjectLine := by
    rw [hdline, hdline, hdel]
  unfold globalSystemInstruction activeProjectsContext deletedProjectsContext
  rw [hlen, hdlen, hlines, hdlines]

/-- C7 witness: two one-note collections identical in title and summary
but with different audio payloads yield byte-identical instructions. -/
theorem globalContext_deterministic_witness :
    globalSystemInstruction [⟨"i1", "T", "S", [], "E", "u1", "m1", "payloadOne", 1⟩] []
      = globalSystemInstruction [⟨"i1", "T", "S", [], "E", "u2", "m2", "payloadTwo", 1⟩] [] :=
  globalContext_deterministic
    [⟨"i1", "T", "S", [], "E", "u1", "m1", "payloadOne", 1⟩]
    [⟨"i1", "T", "S", [], "E", "u2", "m2", "payloadTwo", 1⟩]
    [] [] rfl rfl

/-- C6: the load-from-storage effect is total (the `try`/`catch` swallows
every parse failure, so application start is never prevented) and each
collection whose stored data is missing or unparsable comes up as the
empty collection. -/
theorem load_degrades_to_empty (parse : String → Except String (List SummaryProject))
    (sp sd : Option String) :
    ((sp = none ∨ ∃ str err, sp = some str ∧ parse str = .error err)
        → (loadFromStorage parse sp sd).projects = [])
    ∧ ((sd = none ∨ ∃ str err, sd = some str ∧ parse str = .error err)
        → (loadFromStorage parse sp sd).deletedProjects = []) := by
  constructor
  · rintro (rfl | ⟨str, err, rfl, herr⟩)
    · cases sd with
      | none => rfl
      | some s2 => cases h2 : parse s2 <;> simp [loadFromStorage, h2]
    · simp [loadFromStorage, herr]
  · rintro (rfl | ⟨str, err, rfl, herr⟩)
    · cases sp with
      | none => rfl
      | some s1 => cases h1 : parse s1 <;> simp [loadFromStorage, h1]
    · cases sp with
      | none => simp [loadFromStorage, herr]
      | some s1 => cases h1 : parse s1 <;> simp [loadFromStorage, h1, herr]

/-- C6 witness: both slots hold unparsable text; both collections load as
empty. -/
theorem load_degrades_to_empty_witness :
    (loadFromStorage (fun _ => .error "SyntaxError") (some "garbage") (some "garbage")).projects = []
    ∧ (loadFromStorage (fun _ => .error "SyntaxError") (some "garbage")
        (some "garbage")).deletedProjects = [] :=
  ⟨(load_degrades_to_empty (fun _ => .error "SyntaxError") (some "garbage") (some "garbage")).1
      (Or.inr ⟨"garbage", "SyntaxError", rfl, rfl⟩),
   (load_degrades_to_empty (fun _ => .error "SyntaxError") (some "garbage") (some "garbage")).2
      (Or.inr ⟨"garbage", "SyntaxError", rfl, rfl⟩)⟩

/-- C5: sending a message appends the user message to the visible
transcript immediately, together with an empty trailing assistant message;
every fragment delivered by the stream is then appended to that single
trailing assistant message in arrival order, so after fragments `cs` its
text is the concatenation of `cs` — for `["Hel", "lo, ", "world"]` the
final assistant text is "Hello, world" (see the witness). -/
theorem stream_appends_in_order (s : ChatState) (m : String) (cs : List String)
    (hm : strTrim m ≠ "") (ht : s.isThinking = false) :
    (stepChat s (.send m)).messages = s.messages ++ [⟨.user, m⟩, ⟨.model, ""⟩]
    ∧ (runChat s (.send m :: cs.map .chunk)).messages
        = s.messages ++ [⟨.user, m⟩, ⟨.model, String.join cs⟩] := by
  have hguard : (strTrim m == "" || s.isThinking) = false := by
    rw [ht]
    simp [hm]
  have hsend : stepChat s (.send m)
      = ⟨s.messages ++ [⟨.user, m⟩, ⟨.model, ""⟩], true,
         s.currentSession, some s.currentSession⟩ := by
    simp [stepChat, hguard]
  constructor
  · rw [hsend]
  · rw [runChat_cons, hsend]
    have hassoc : s.messages ++ [⟨ChatRole.user, m⟩, ⟨ChatRole.model, ""⟩]
        = (s.messages ++ [⟨ChatRole.user, m⟩]) ++ [⟨ChatRole.model, ""⟩] := by
      simp
    rw [hassoc, runChat_chunks]
    simp

/-- C5 witness: the spec's fragment scenario, run from a freshly mounted
chat: the final assistant message text is "Hello, world". -/
theorem stream_appends_in_order_witness :
    strTrim "Hi" ≠ ""
    ∧ (runChat initialChatState
        (.send "Hi" :: (["Hel", "lo, ", "world"].map ChatEvent.chunk))).messages
      = [⟨.user, "Hi"⟩, ⟨.model, "Hello, world"⟩] := by
  refine ⟨by decide, ?_⟩
  have h := stream_appends_in_order initialChatState "Hi" ["Hel", "lo, ", "world"]
    (by decide) rfl
  exact h.2.trans (by decide)

/-- C3 at its failing input: `handleSend`'s `onChunk` has no stale-session
guard, so after the global context is rebuilt (`currentSession` becomes 1)
a fragment still in flight from the superseded session 0 is appended to
the trailing assistant message of the transcript that stays on screen for
the new session, instead of being discarded. -/
theorem stale_chunk_appended_after_rebuild :
    (runChat initialChatState
        [.send "hi", .rebuildGlobalChat, .chunk "stale"]).messages
      = [⟨.user, "hi"⟩, ⟨.model, "stale"⟩]
    ∧ (runChat initialChatState
        [.send "hi", .rebuildGlobalChat, .chunk "stale"]).streamSession = some 0
    ∧ (runChat initialChatState
        [.send "hi", .rebuildGlobalChat, .chunk "stale"]).currentSession = 1 := by
  refine ⟨?_, by decide, by decide⟩
  decide

end EchoNote
